import Mathlib

/-!
Shallow embedding of the `market` Django application (models.py, views.py).
Users are identified by their numeric id.  The relational store is a record
of lists of rows; each request handler from views.py becomes a function from
a database state and request data to a result paired with the new state.
-/

namespace Market

/-- A row of the `Product` table (models.py, class Product). -/
structure Product where
  id : Nat
  name : String
  description : String
  price : Nat
  category : String
  condition : String
  seller : Nat
  createdAt : Nat
  isAvailable : Bool
  viewsCount : Nat
deriving DecidableEq, Repr

/-- A row of the `Cart` table (models.py, class Cart). -/
structure CartItem where
  id : Nat
  buyer : Nat
  product : Nat
  quantity : Nat
deriving DecidableEq, Repr

/-- A row of the `Conversation` table (models.py, class Conversation). -/
structure Conversation where
  id : Nat
  product : Nat
  buyer : Nat
  seller : Nat
deriving DecidableEq, Repr

/-- A row of the `Message` table (models.py, class Message). -/
structure Message where
  id : Nat
  conversation : Nat
  sender : Nat
  receiver : Nat
  content : String
  timestamp : Nat
  read : Bool
deriving DecidableEq, Repr

/-- A row of the `Rating` table (models.py, class Rating); `product` is nullable. -/
structure Rating where
  id : Nat
  seller : Nat
  buyer : Nat
  product : Option Nat
  rating : Nat
  review : String
deriving DecidableEq, Repr

/-- A row of the `ProductView` table (models.py, class ProductView). -/
structure ProductView where
  user : Nat
  product : Nat
deriving DecidableEq, Repr

/-- The persistent store: one list of rows per table, plus a fresh-id source
standing for the autoincrement primary-key sequence (also used as the logical
clock for `auto_now_add` timestamps). -/
structure DB where
  users : List Nat
  products : List Product
  carts : List CartItem
  conversations : List Conversation
  messages : List Message
  ratings : List Rating
  productViews : List ProductView
  nextId : Nat
deriving DecidableEq, Repr

/-- `get_object_or_404(Product, pk=pk)`: lookup by primary key only. -/
def findProduct (db : DB) (pk : Nat) : Option Product :=
  db.products.find? (fun p => p.id == pk)

/-- The cart rows keyed by a given (buyer, product) pair. -/
def cartRowsFor (db : DB) (user pk : Nat) : List CartItem :=
  db.carts.filter (fun c => c.buyer == user && c.product == pk)

/-- The rating rows keyed by a given (seller, buyer, product) triple. -/
def ratingRowsFor (db : DB) (s b : Nat) (p : Option Nat) : List Rating :=
  db.ratings.filter (fun r => r.seller == s && r.buyer == b && r.product == p)

/-- `Conversation.unread_count(user)` (models.py): messages of the
conversation addressed to `user` and not yet read. -/
def unread_count (db : DB) (convId user : Nat) : Nat :=
  (db.messages.filter
    (fun m => m.conversation == convId && m.receiver == user && !m.read)).length

/-- Primary keys of a table's rows are pairwise distinct. -/
def IdsDistinct {α : Type} (key : α → Nat) (l : List α) : Prop :=
  l.Pairwise (fun a b => key a ≠ key b)

/-- Every row's primary key is below the autoincrement counter. -/
def IdsBelow {α : Type} (key : α → Nat) (l : List α) (n : Nat) : Prop :=
  ∀ a ∈ l, key a < n

/-- Stable insertion into a list sorted by the boolean relation `le`. -/
def insertBy {α : Type} (le : α → α → Bool) (a : α) : List α → List α
  | [] => [a]
  | b :: t => if le a b then a :: b :: t else b :: insertBy le a t

/-- Stable insertion sort; stands for the ORM's `order_by`. -/
def sortBy {α : Type} (le : α → α → Bool) : List α → List α
  | [] => []
  | a :: t => insertBy le a (sortBy le t)

/-- Drop the longest prefix of characters satisfying `p`. -/
def dropWhileB (p : Char → Bool) : List Char → List Char
  | [] => []
  | c :: t => if p c then dropWhileB p t else c :: t

/-- Python `str.strip()`: remove leading and trailing whitespace. -/
def pyStrip (s : String) : String :=
  String.mk (dropWhileB (fun c => c == ' ' || c == '\t' || c == '\n' || c == '\r')
    ((dropWhileB (fun c => c == ' ' || c == '\t' || c == '\n' || c == '\r')
      s.toList.reverse).reverse))

/-- `l` starts with `p`. -/
def charsPrefixOf : List Char → List Char → Bool
  | [], _ => true
  | _ :: _, [] => false
  | a :: asx, b :: bs => a == b && charsPrefixOf asx bs

/-- `p` occurs contiguously somewhere in `l`. -/
def charsInfixOf (p : List Char) : List Char → Bool
  | [] => charsPrefixOf p []
  | b :: bs => charsPrefixOf p (b :: bs) || charsInfixOf p bs

/-- Case-insensitive substring test, standing for the ORM `icontains` lookup. -/
def icontains (hay pat : String) : Bool :=
  charsInfixOf pat.toLower.toList hay.toLower.toList

/-- `Paginator(products, 12).get_page(page_number)`: a non-integer page number
gives page 1, an out-of-range page number gives the nearest valid page. -/
def getPage {α : Type} (xs : List α) (pageSize : Nat) (page : Option Int) : List α :=
  let numPages := max 1 ((xs.length + pageSize - 1) / pageSize)
  let p : Nat :=
    match page with
    | none => 1
    | some n => if n < 1 then numPages else if n > (numPages : Int) then numPages else n.toNat
  (xs.drop ((p - 1) * pageSize)).take pageSize

/-- `product_list` (views.py): available products, text/category/condition
filters, one of four sort keys (unknown keys fall back to newest-first),
then a 12-per-page slice. -/
def product_list (db : DB) (q cat cond sort : String) (page : Option Int) :
    List Product :=
  let ps := db.products.filter (fun p => p.isAvailable)
  let ps := if q != "" then
      ps.filter (fun p => icontains p.name q || icontains p.description q)
    else ps
  let ps := if cat != "" then ps.filter (fun p => p.category == cat) else ps
  let ps := if cond != "" then ps.filter (fun p => p.condition == cond) else ps
  let ps :=
    if sort == "price_low" then sortBy (fun a b => decide (a.price ≤ b.price)) ps
    else if sort == "price_high" then sortBy (fun a b => decide (b.price ≤ a.price)) ps
    else if sort == "popular" then sortBy (fun a b => decide (b.viewsCount ≤ a.viewsCount)) ps
    else sortBy (fun a b => decide (b.createdAt ≤ a.createdAt)) ps
  getPage ps 12 page

/-- The similar-products query of `product_detail` (views.py): same category,
available, the product itself excluded, newest first, at most 4. -/
def similar_products (db : DB) (prod : Product) : List Product :=
  ((sortBy (fun a b => decide (b.createdAt ≤ a.createdAt))
      (db.products.filter (fun p => p.category == prod.category && p.isAvailable))).filter
    (fun p => p.id != prod.id)).take 4

/-- Result of `product_detail`. -/
inductive DetailResult where
  | notFound
  | page (similar : List Product)
deriving DecidableEq, Repr

/-- `product_detail` (views.py): fetch by pk; when the requester is
authenticated and is not the seller, `increment_views` and append a
ProductView row; then compute the similar list. `user = none` is anonymous. -/
def product_detail (db : DB) (user : Option Nat) (pk : Nat) : DetailResult × DB :=
  match findProduct db pk with
  | none => (.notFound, db)
  | some prod =>
    let db2 :=
      match user with
      | some u =>
        if u != prod.seller then
          { db with
            products := db.products.map (fun p =>
              if p.id == prod.id then { p with viewsCount := p.viewsCount + 1 } else p),
            productViews := db.productViews ++ [{ user := u, product := prod.id }] }
        else db
      | none => db
    (.page (similar_products db2 prod), db2)

/-- Result of `cart_add`. -/
inductive CartAddResult where
  | notFound
  | invalidOperation
  | added (cartCount : Nat)
deriving DecidableEq, Repr

/-- `cart_add` (views.py): reject the product's own seller, otherwise
`get_or_create` on (buyer, product) with default quantity 1, incrementing the
quantity when the row already exists; answer with the buyer's cart count. -/
def cart_add (db : DB) (user : Nat) (pk : Nat) : CartAddResult × DB :=
  match findProduct db pk with
  | none => (.notFound, db)
  | some prod =>
    if prod.seller == user then
      (.invalidOperation, db)
    else
      let db2 :=
        match db.carts.find? (fun c => c.buyer == user && c.product == prod.id) with
        | some item =>
          { db with carts := db.carts.map (fun c =>
              if c.id == item.id then { c with quantity := c.quantity + 1 } else c) }
        | none =>
          { db with
            carts := db.carts ++
              [{ id := db.nextId, buyer := user, product := prod.id, quantity := 1 }],
            nextId := db.nextId + 1 }
      (.added ((db2.carts.filter (fun c => c.buyer == user)).length), db2)

/-- Result of `cart_remove`. -/
inductive CartMutResult where
  | notFound
  | redirectCart
deriving DecidableEq, Repr

/-- `cart_remove` (views.py): `get_object_or_404(Cart, pk=pk, buyer=request.user)`
then delete. -/
def cart_remove (db : DB) (user : Nat) (pk : Nat) : CartMutResult × DB :=
  match db.carts.find? (fun c => c.id == pk && c.buyer == user) with
  | none => (.notFound, db)
  | some item =>
    (.redirectCart, { db with carts := db.carts.filter (fun c => c.id != item.id) })

/-- Python `int(s)` on a string: optional surrounding whitespace, optional
sign, then at least one digit; anything else raises `ValueError`. -/
def pyParseInt (s : String) : Option Int :=
  let t := pyStrip s
  let core : Option (Bool × List Char) :=
    match t.toList with
    | [] => none
    | c :: rest =>
      if c == '-' then some (true, rest)
      else if c == '+' then some (false, rest)
      else some (false, c :: rest)
  match core with
  | none => none
  | some (neg, ds) =>
    if ds ≠ [] ∧ ds.all (fun c => c.isDigit) then
      let n : Nat := ds.foldl (fun acc c => acc * 10 + (c.toNat - 48)) 0
      some (if neg then -(n : Int) else (n : Int))
    else none

/-- Result of `cart_update`; `serverError` stands for an uncaught exception
escaping the handler (Django answers 500). -/
inductive CartUpdResult where
  | notFound
  | serverError
  | redirectCart
deriving DecidableEq, Repr

/-- `cart_update` (views.py): owner-scoped lookup, then
`quantity = int(request.POST.get('quantity', 1))` — a missing field defaults
to 1, a malformed field raises `ValueError` (uncaught); a positive quantity
is stored, a non-positive one deletes the row. -/
def cart_update (db : DB) (user : Nat) (pk : Nat) (rawQuantity : Option String) :
    CartUpdResult × DB :=
  match db.carts.find? (fun c => c.id == pk && c.buyer == user) with
  | none => (.notFound, db)
  | some item =>
    let q : Option Int :=
      match rawQuantity with
      | none => some 1
      | some s => pyParseInt s
    match q with
    | none => (.serverError, db)
    | some quantity =>
      if quantity > 0 then
        (.redirectCart, { db with carts := db.carts.map (fun c =>
            if c.id == item.id then { c with quantity := quantity.toNat } else c) })
      else
        (.redirectCart, { db with carts := db.carts.filter (fun c => c.id != item.id) })

/-- Result of `conversation_detail`. -/
inductive ConvDetailResult where
  | notFound
  | forbidden
  | redirectSelf
  | page
deriving DecidableEq, Repr

/-- `conversation_detail` (views.py): participants only; a POST whose stripped
content is nonempty appends a message to the other party and redirects
(before the read-marking line runs); otherwise all messages of the
conversation addressed to the requester are marked read and the page renders.
`post = none` is a GET, `post = some raw` a POST with content `raw`. -/
def conversation_detail (db : DB) (user : Nat) (pk : Nat) (post : Option String) :
    ConvDetailResult × DB :=
  match db.conversations.find? (fun c => c.id == pk) with
  | none => (.notFound, db)
  | some conv =>
    if user != conv.buyer && user != conv.seller then
      (.forbidden, db)
    else
      let posted : Option String :=
        match post with
        | some raw => if pyStrip raw != "" then some (pyStrip raw) else none
        | none => none
      match posted with
      | some content =>
        let rcv := if conv.buyer == user then conv.seller else conv.buyer
        (.redirectSelf,
          { db with
            messages := db.messages ++
              [{ id := db.nextId, conversation := conv.id, sender := user,
                 receiver := rcv, content := content, timestamp := db.nextId,
                 read := false }],
            nextId := db.nextId + 1 })
      | none =>
        (.page,
          { db with messages := db.messages.map (fun m =>
              if m.conversation == conv.id && m.receiver == user && !m.read then
                { m with read := true }
              else m) })

/-- Result of `start_conversation`. -/
inductive StartConvResult where
  | notFound
  | invalidOperation
  | redirectConv (pk : Nat)
  | form
deriving DecidableEq, Repr

/-- `start_conversation` (views.py): the seller may not message themselves;
otherwise a POST with nonempty stripped content get-or-creates the
Conversation for (product, requester, product.seller) and appends a message
from the requester to the seller; otherwise an existing conversation is
redirected to, else the form renders. -/
def start_conversation (db : DB) (user : Nat) (productPk : Nat)
    (post : Option String) : StartConvResult × DB :=
  match findProduct db productPk with
  | none => (.notFound, db)
  | some prod =>
    if prod.seller == user then
      (.invalidOperation, db)
    else
      let existing := db.conversations.find? (fun c =>
        c.product == prod.id && c.buyer == user && c.seller == prod.seller)
      let posted : Option String :=
        match post with
        | some raw => if pyStrip raw != "" then some (pyStrip raw) else none
        | none => none
      match posted with
      | some content =>
        match existing with
        | some conv =>
          (.redirectConv conv.id,
            { db with
              messages := db.messages ++
                [{ id := db.nextId, conversation := conv.id, sender := user,
                   receiver := prod.seller, content := content,
                   timestamp := db.nextId, read := false }],
              nextId := db.nextId + 1 })
        | none =>
          let conv : Conversation :=
            { id := db.nextId, product := prod.id, buyer := user, seller := prod.seller }
          (.redirectConv conv.id,
            { db with
              conversations := db.conversations ++ [conv],
              messages := db.messages ++
                [{ id := db.nextId + 1, conversation := conv.id, sender := user,
                   receiver := prod.seller, content := content,
                   timestamp := db.nextId + 1, read := false }],
              nextId := db.nextId + 2 })
      | none =>
        match existing with
        | some conv => (.redirectConv conv.id, db)
        | none => (.form, db)

/-- Result of `rate_seller`. -/
inductive RateResult where
  | notFound
  | invalidOperation
  | redirectProfile
  | formRedisplay
deriving DecidableEq, Repr

/-- The `product = get_object_or_404(Product, pk=product_pk) if product_pk
else None` step of `rate_seller`: `none` means 404. -/
def resolveProduct (db : DB) (productPk : Option Nat) : Option (Option Nat) :=
  match productPk with
  | none => some none
  | some pk =>
    match findProduct db pk with
    | none => none
    | some p => some (some p.id)

/-- `rate_seller` (views.py): seller must exist and differ from the requester;
the existing (seller, buyer, product) rating, when there is one, is the form
instance, so a valid submission (rating in 1..5 and review of at most 500
characters, the ModelForm checks inherited from the Rating model) updates it
in place, and otherwise a new row is inserted; an invalid submission
redisplays the form. `post = some (score, review)` is a POST. -/
def rate_seller (db : DB) (user : Nat) (sellerId : Nat) (productPk : Option Nat)
    (post : Option (Nat × String)) : RateResult × DB :=
  if db.users.contains sellerId then
    if sellerId == user then
      (.invalidOperation, db)
    else
      match resolveProduct db productPk with
      | none => (.notFound, db)
      | some prodRef =>
        let existing := db.ratings.find? (fun r =>
          r.seller == sellerId && r.buyer == user && r.product == prodRef)
        match post with
        | none => (.formRedisplay, db)
        | some (score, review) =>
          if 1 ≤ score ∧ score ≤ 5 ∧ review.length ≤ 500 then
            match existing with
            | some r0 =>
              (.redirectProfile,
                { db with ratings := db.ratings.map (fun r =>
                    if r.id == r0.id then
                      { r with seller := sellerId, buyer := user, product := prodRef,
                               rating := score, review := review }
                    else r) })
            | none =>
              (.redirectProfile,
                { db with
                  ratings := db.ratings ++
                    [{ id := db.nextId, seller := sellerId, buyer := user,
                       product := prodRef, rating := score, review := review }],
                  nextId := db.nextId + 1 })
          else (.formRedisplay, db)
  else (.notFound, db)

/-- `recommendations` (views.py): the categories of the requester's viewed
products unioned with those of their cart; when nonempty, the available
products of those categories (own listings excluded) most viewed first, else
the most viewed available products overall (own listings excluded); 12 each. -/
def recommendations (db : DB) (user : Nat) : List Product :=
  let viewedCats := (db.productViews.filter (fun v => v.user == user)).filterMap
    (fun v => (findProduct db v.product).map (fun p => p.category))
  let cartCats := (db.carts.filter (fun c => c.buyer == user)).filterMap
    (fun c => (findProduct db c.product).map (fun p => p.category))
  let cats := (viewedCats ++ cartCats).dedup
  if cats ≠ [] then
    (sortBy (fun a b =>
        decide (b.viewsCount < a.viewsCount ∨
          (a.viewsCount = b.viewsCount ∧ b.createdAt ≤ a.createdAt)))
      (db.products.filter (fun p =>
        cats.contains p.category && p.isAvailable && p.seller != user))).take 12
  else
    (sortBy (fun a b => decide (b.viewsCount ≤ a.viewsCount))
      (db.products.filter (fun p => p.isAvailable && p.seller != user))).take 12

/-! ### Shared list lemmas -/

theorem find?_of_filter_eq_singleton {α : Type} (p : α → Bool) :
    ∀ (l : List α) (r : α), l.filter p = [r] → l.find? p = some r := by
  intro l
  induction l with
  | nil => intro r h; simp at h
  | cons a t ih =>
    intro r h
    by_cases hpa : p a = true
    · rw [List.filter_cons_of_pos hpa] at h
      rw [List.find?_cons_of_pos _ hpa]
      exact congrArg some (List.head_eq_of_cons_eq h)
    · rw [List.filter_cons_of_neg hpa] at h
      rw [List.find?_cons_of_neg _ hpa]
      exact ih r h

theorem find?_of_filter_eq_nil {α : Type} (p : α → Bool) (l : List α)
    (h : l.filter p = []) : l.find? p = none := by
  rw [List.find?_eq_none]
  intro x hx
  exact List.filter_eq_nil_iff.mp h x hx

theorem mem_of_filter_eq_singleton {α : Type} {p : α → Bool} {l : List α} {r : α}
    (h : l.filter p = [r]) : r ∈ l ∧ p r = true := by
  have : r ∈ l.filter p := by rw [h]; exact List.mem_singleton.mpr rfl
  exact ⟨(List.mem_filter.mp this).1, (List.mem_filter.mp this).2⟩

theorem map_eq_self_of_fix {α : Type} (f : α → α) :
    ∀ (l : List α), (∀ a ∈ l, f a = a) → l.map f = l := by
  intro l
  induction l with
  | nil => intro _; rfl
  | cons a t ih =>
    intro h
    simp only [List.map_cons]
    rw [h a (List.mem_cons_self a t), ih (fun b hb => h b (List.mem_cons_of_mem a hb))]

theorem filter_map_single {α : Type} (key : α → Bool) (f : α → α) :
    ∀ (l : List α) (r : α), l.filter key = [r] →
      (∀ a ∈ l, a ≠ r → f a = a) → key (f r) = true →
      (l.map f).filter key = [f r] := by
  intro l
  induction l with
  | nil => intro r h; simp at h
  | cons a t ih =>
    intro r h1 h2 h3
    by_cases hka : key a = true
    · rw [List.filter_cons_of_pos hka] at h1
      have har : a = r := List.head_eq_of_cons_eq h1
      have htnil : t.filter key = [] := List.tail_eq_of_cons_eq h1
      subst har
      simp only [List.map_cons]
      rw [List.filter_cons_of_pos h3]
      congr 1
      have hfix : t.map f = t := by
        apply map_eq_self_of_fix
        intro b hb
        by_cases hbr : b = a
        · subst hbr
          have : key b = true := hka
          have : ¬ (key b = true) := by
            simpa using List.filter_eq_nil_iff.mp htnil b hb
          exact absurd hka this
        · exact h2 b (List.mem_cons_of_mem a hb) hbr
      rw [hfix]
      exact htnil
    · rw [List.filter_cons_of_neg hka] at h1
      have har : a ≠ r := by
        intro hc
        have hkr : key r = true := (mem_of_filter_eq_singleton h1).2
        exact hka (hc ▸ hkr)
      simp only [List.map_cons]
      rw [h2 a (List.mem_cons_self a t) har]
      rw [List.filter_cons_of_neg hka]
      exact ih r h1 (fun b hb hbr => h2 b (List.mem_cons_of_mem a hb) hbr) h3

theorem find?_map_pres {α : Type} (f : α → α) (p : α → Bool)
    (hf : ∀ a, p (f a) = p a) :
    ∀ (l : List α), (l.map f).find? p = (l.find? p).map f := by
  intro l
  induction l with
  | nil => rfl
  | cons a t ih =>
    by_cases hpa : p a = true
    · simp only [List.map_cons]
      rw [List.find?_cons_of_pos _ (by rw [hf]; exact hpa),
        List.find?_cons_of_pos _ hpa]
      rfl
    · simp only [List.map_cons]
      rw [List.find?_cons_of_neg _ (by rw [hf]; simpa using hpa),
        List.find?_cons_of_neg _ hpa]
      exact ih

theorem mem_insertBy {α : Type} (le : α → α → Bool) (a x : α) :
    ∀ (l : List α), x ∈ insertBy le a l ↔ x = a ∨ x ∈ l := by
  intro l
  induction l with
  | nil => simp [insertBy]
  | cons b t ih =>
    by_cases h : le a b = true
    · simp [insertBy, h, List.mem_cons]
    · rw [insertBy, if_neg h]
      simp only [List.mem_cons, ih]
      tauto

theorem mem_sortBy {α : Type} (le : α → α → Bool) (x : α) :
    ∀ (l : List α), x ∈ sortBy le l ↔ x ∈ l := by
  intro l
  induction l with
  | nil => simp [sortBy]
  | cons a t ih =>
    simp only [sortBy, mem_insertBy, ih, List.mem_cons]

theorem key_ne_of_distinct {α : Type} {key : α → Nat} {l : List α}
    (hd : IdsDistinct key l) {a b : α} (ha : a ∈ l) (hb : b ∈ l) (hne : a ≠ b) :
    key a ≠ key b := by
  have hsym : Symmetric (fun x y : α => key x ≠ key y) := fun x y h => h.symm
  exact List.Pairwise.forall hsym hd ha hb hne

/-! ### Sample rows used by the closed witness theorems -/

/-- An available sample product sold by user 1. -/
def pA : Product :=
  { id := 10, name := "Lamp", description := "warm light", price := 30,
    category := "furniture", condition := "good", seller := 1, createdAt := 5,
    isAvailable := true, viewsCount := 0 }

/-- An unavailable sample product sold by user 1. -/
def pB : Product :=
  { id := 11, name := "Mouse", description := "usb", price := 10,
    category := "electronics", condition := "new", seller := 1, createdAt := 6,
    isAvailable := false, viewsCount := 7 }

/-- A small sample database with two users and two products. -/
def dbW : DB :=
  { users := [1, 2], products := [pA, pB], carts := [], conversations := [],
    messages := [], ratings := [], productViews := [], nextId := 20 }

/-! ### C1: cart add -/

/-- **C1.** Cart add rejects the product's seller with `InvalidOperation`,
touching nothing; for any other authenticated buyer it upserts the
(buyer, product) cart row: with no existing row one is created with
quantity 1, with an existing row that row's quantity grows by exactly 1 (the
table's size is unchanged, so a double add yields a single row of quantity 2,
never two rows); the result carries the buyer's updated cart item count. -/
theorem cart_add_spec :
    (∀ (db : DB) (u pk : Nat) (prod : Product),
      findProduct db pk = some prod → prod.seller = u →
      cart_add db u pk = (CartAddResult.invalidOperation, db)) ∧
    (∀ (db : DB) (u pk : Nat) (prod : Product),
      findProduct db pk = some prod → prod.seller ≠ u →
      cartRowsFor db u pk = [] →
      cart_add db u pk =
        (CartAddResult.added
          (((db.carts ++ [({ id := db.nextId, buyer := u, product := pk, quantity := 1 } : CartItem)]).filter
              (fun c => c.buyer == u)).length),
         { db with
           carts := db.carts ++
             [({ id := db.nextId, buyer := u, product := pk, quantity := 1 } : CartItem)],
           nextId := db.nextId + 1 })) ∧
    (∀ (db : DB) (u pk : Nat) (prod : Product) (r : CartItem),
      findProduct db pk = some prod → prod.seller ≠ u →
      IdsDistinct (fun c => c.id) db.carts →
      cartRowsFor db u pk = [r] →
      (cart_add db u pk).1 =
          CartAddResult.added
            (((cart_add db u pk).2.carts.filter (fun c => c.buyer == u)).length) ∧
        cartRowsFor (cart_add db u pk).2 u pk = [{ r with quantity := r.quantity + 1 }] ∧
        (cart_add db u pk).2.carts.length = db.carts.length) ∧
    (∀ (db : DB) (u pk : Nat) (prod : Product),
      findProduct db pk = some prod → prod.seller ≠ u →
      cartRowsFor db u pk = [] →
      IdsDistinct (fun c => c.id) db.carts →
      IdsBelow (fun c => c.id) db.carts db.nextId →
      cartRowsFor (cart_add (cart_add db u pk).2 u pk).2 u pk =
          [({ id := db.nextId, buyer := u, product := pk, quantity := 2 } : CartItem)] ∧
        (cart_add (cart_add db u pk).2 u pk).2.carts.length = db.carts.length + 1) := by
  have hid : ∀ (db : DB) (pk : Nat) (prod : Product),
      findProduct db pk = some prod → prod.id = pk := by
    intro db pk prod hfind
    have := List.find?_some (p := fun p : Product => p.id == pk)
      (by simpa [findProduct] using hfind)
    simpa using this
  have hcreate : ∀ (db : DB) (u pk : Nat) (prod : Product),
      findProduct db pk = some prod → prod.seller ≠ u →
      cartRowsFor db u pk = [] →
      cart_add db u pk =
        (CartAddResult.added
          (((db.carts ++ [({ id := db.nextId, buyer := u, product := pk, quantity := 1 } : CartItem)]).filter
              (fun c => c.buyer == u)).length),
         { db with
           carts := db.carts ++
             [({ id := db.nextId, buyer := u, product := pk, quantity := 1 } : CartItem)],
           nextId := db.nextId + 1 }) := by
    intro db u pk prod hfind hsell hempty
    have hpid := hid db pk prod hfind
    have hempty' : db.carts.filter (fun c => c.buyer == u && c.product == prod.id) = [] := by
      rw [hpid]; exact hempty
    have hnone := find?_of_filter_eq_nil _ _ hempty'
    simp only [cart_add, hfind, hnone]
    rw [if_neg (by simpa using hsell)]
    rw [hpid]
  have hincr : ∀ (db : DB) (u pk : Nat) (prod : Product) (r : CartItem),
      findProduct db pk = some prod → prod.seller ≠ u →
      IdsDistinct (fun c => c.id) db.carts →
      cartRowsFor db u pk = [r] →
      (cart_add db u pk).1 =
          CartAddResult.added
            (((cart_add db u pk).2.carts.filter (fun c => c.buyer == u)).length) ∧
        cartRowsFor (cart_add db u pk).2 u pk = [{ r with quantity := r.quantity + 1 }] ∧
        (cart_add db u pk).2.carts.length = db.carts.length := by
    intro db u pk prod r hfind hsell hdist hsingle
    have hpid := hid db pk prod hfind
    have hsingle' : db.carts.filter (fun c => c.buyer == u && c.product == prod.id) = [r] := by
      rw [hpid]; exact hsingle
    have hfindr := find?_of_filter_eq_singleton _ _ _ hsingle'
    obtain ⟨hrmem, hrkey⟩ := mem_of_filter_eq_singleton hsingle'
    have hcart : cart_add db u pk =
        (CartAddResult.added
          (((db.carts.map (fun c =>
              if c.id == r.id then { c with quantity := c.quantity + 1 } else c)).filter
                (fun c => c.buyer == u)).length),
         { db with carts := db.carts.map (fun c =>
            if c.id == r.id then { c with quantity := c.quantity + 1 } else c) }) := by
      simp only [cart_add, hfind, hfindr]
      rw [if_neg (by simpa using hsell)]
    rw [hcart]
    refine ⟨rfl, ?_, by simp⟩
    have hres := filter_map_single (fun c => c.buyer == u && c.product == prod.id)
      (fun c => if c.id == r.id then { c with quantity := c.quantity + 1 } else c)
      db.carts r hsingle'
      (fun a ha hane => by
        have hne : a.id ≠ r.id := key_ne_of_distinct hdist ha hrmem hane
        simp [hne])
      (by simpa using hrkey)
    show (db.carts.map (fun c =>
        if c.id == r.id then { c with quantity := c.quantity + 1 } else c)).filter
          (fun c => c.buyer == u && c.product == pk) =
      [{ r with quantity := r.quantity + 1 }]
    rw [← hpid]
    rw [hres]
    simp
  refine ⟨?_, hcreate, hincr, ?_⟩
  · intro db u pk prod hfind hsell
    simp only [cart_add, hfind]
    rw [if_pos (by simpa using hsell)]
  · intro db u pk prod hfind hsell hempty hdist hbelow
    have hstep := hcreate db u pk prod hfind hsell hempty
    have h2 : (cart_add db u pk).2 =
        { db with
          carts := db.carts ++
            [({ id := db.nextId, buyer := u, product := pk, quantity := 1 } : CartItem)],
          nextId := db.nextId + 1 } := by rw [hstep]
    have hdist1 : IdsDistinct (fun c => c.id)
        (db.carts ++ [({ id := db.nextId, buyer := u, product := pk, quantity := 1 } : CartItem)]) := by
      show List.Pairwise _ _
      rw [List.pairwise_append]
      refine ⟨hdist, List.pairwise_singleton _ _, ?_⟩
      intro a ha b hb
      have hb' := List.mem_singleton.mp hb
      have h3 : a.id < db.nextId := hbelow a ha
      rw [hb']
      show a.id ≠ db.nextId
      omega
    have hsingle1 :
        (db.carts ++ [({ id := db.nextId, buyer := u, product := pk, quantity := 1 } : CartItem)]).filter
            (fun c => c.buyer == u && c.product == pk) =
          [({ id := db.nextId, buyer := u, product := pk, quantity := 1 } : CartItem)] := by
      rw [List.filter_append]
      have hemp : db.carts.filter (fun c => c.buyer == u && c.product == pk) = [] := hempty
      rw [hemp]
      simp
    obtain ⟨hof, hrows, hlen⟩ := hincr
      { db with
        carts := db.carts ++
          [({ id := db.nextId, buyer := u, product := pk, quantity := 1 } : CartItem)],
        nextId := db.nextId + 1 }
      u pk prod
      ({ id := db.nextId, buyer := u, product := pk, quantity := 1 } : CartItem)
      hfind hsell hdist1 hsingle1
    rw [h2]
    refine ⟨hrows, ?_⟩
    rw [hlen]
    simp

/-- Closed instance of `cart_add_spec`: in the sample database, user 2 adds
product 10 twice and ends with one cart row of quantity 2. -/
theorem cart_add_spec_witness :
    cartRowsFor (cart_add (cart_add dbW 2 10).2 2 10).2 2 10 =
        [({ id := 20, buyer := 2, product := 10, quantity := 2 } : CartItem)] ∧
      (cart_add (cart_add dbW 2 10).2 2 10).2.carts.length = dbW.carts.length + 1 :=
  cart_add_spec.2.2.2 dbW 2 10 pA rfl (by decide) rfl List.Pairwise.nil
    (by intro a ha; exact absurd ha (List.not_mem_nil a))

/-! ### C2 and C10: product detail view tracking -/

theorem findProduct_id {db : DB} {pk : Nat} {prod : Product}
    (h : findProduct db pk = some prod) : prod.id = pk := by
  have h2 := List.find?_some (p := fun p : Product => p.id == pk)
    (by simpa [findProduct] using h)
  simpa using h2

theorem product_detail_track (db : DB) (u pk : Nat) (prod : Product)
    (hfind : findProduct db pk = some prod) (hsell : prod.seller ≠ u) :
    (∃ sim, (product_detail db (some u) pk).1 = DetailResult.page sim) ∧
      (product_detail db (some u) pk).2.productViews =
        db.productViews ++ [{ user := u, product := pk }] ∧
      findProduct (product_detail db (some u) pk).2 pk =
        some { prod with viewsCount := prod.viewsCount + 1 } ∧
      (product_detail db (some u) pk).2.products.length = db.products.length ∧
      (∀ q ∈ db.products, q.id ≠ pk → q ∈ (product_detail db (some u) pk).2.products) ∧
      (product_detail db (some u) pk).2.carts = db.carts ∧
      (product_detail db (some u) pk).2.conversations = db.conversations ∧
      (product_detail db (some u) pk).2.messages = db.messages ∧
      (product_detail db (some u) pk).2.ratings = db.ratings ∧
      (product_detail db (some u) pk).2.users = db.users := by
  have hpid : prod.id = pk := findProduct_id hfind
  have hdet : product_detail db (some u) pk =
      (DetailResult.page (similar_products
        { db with
          products := db.products.map (fun p =>
            if p.id == prod.id then { p with viewsCount := p.viewsCount + 1 } else p),
          productViews := db.productViews ++ [{ user := u, product := prod.id }] } prod),
       { db with
         products := db.products.map (fun p =>
           if p.id == prod.id then { p with viewsCount := p.viewsCount + 1 } else p),
         productViews := db.productViews ++ [{ user := u, product := prod.id }] }) := by
    simp only [product_detail, hfind]
    rw [if_pos (by simpa using Ne.symm hsell)]
  rw [hdet]
  have hf : ∀ p : Product,
      ((if p.id == prod.id then { p with viewsCount := p.viewsCount + 1 } else p).id == pk) =
        (p.id == pk) := by
    intro p
    by_cases h : (p.id == prod.id) = true <;> simp [h]
  refine ⟨⟨_, rfl⟩, by simp [hpid], ?_, by simp, ?_, rfl, rfl, rfl, rfl, rfl⟩
  · show List.find? (fun p => p.id == pk)
        (db.products.map (fun p =>
          if p.id == prod.id then { p with viewsCount := p.viewsCount + 1 } else p)) = _
    rw [find?_map_pres _ _ hf]
    rw [show db.products.find? (fun p : Product => p.id == pk) = some prod from hfind]
    simp
  · intro q hq hqne
    have hfq : (if q.id == prod.id then { q with viewsCount := q.viewsCount + 1 } else q) = q := by
      simp [hpid, hqne]
    have hmem := List.mem_map_of_mem
      (fun p : Product =>
        if p.id == prod.id then { p with viewsCount := p.viewsCount + 1 } else p) hq
    simp only [hfq] at hmem
    exact hmem

/-- **C2.** On a product-detail request by an authenticated user who is not
the seller, the product's `views_count` grows by exactly 1 and exactly one
ProductView row for (requester, product) is appended, every other row and
table being untouched; an anonymous requester, or the seller viewing their
own listing, changes nothing. -/
theorem view_tracking_spec :
    (∀ (db : DB) (u pk : Nat) (prod : Product),
      findProduct db pk = some prod → prod.seller ≠ u →
      (∃ sim, (product_detail db (some u) pk).1 = DetailResult.page sim) ∧
        (product_detail db (some u) pk).2.productViews =
          db.productViews ++ [{ user := u, product := pk }] ∧
        findProduct (product_detail db (some u) pk).2 pk =
          some { prod with viewsCount := prod.viewsCount + 1 } ∧
        (product_detail db (some u) pk).2.products.length = db.products.length ∧
        (∀ q ∈ db.products, q.id ≠ pk → q ∈ (product_detail db (some u) pk).2.products) ∧
        (product_detail db (some u) pk).2.carts = db.carts ∧
        (product_detail db (some u) pk).2.conversations = db.conversations ∧
        (product_detail db (some u) pk).2.messages = db.messages ∧
        (product_detail db (some u) pk).2.ratings = db.ratings ∧
        (product_detail db (some u) pk).2.users = db.users) ∧
    (∀ (db : DB) (pk : Nat), (product_detail db none pk).2 = db) ∧
    (∀ (db : DB) (pk : Nat) (prod : Product),
      findProduct db pk = some prod →
      (product_detail db (some prod.seller) pk).2 = db) := by
  refine ⟨fun db u pk prod h1 h2 => product_detail_track db u pk prod h1 h2, ?_, ?_⟩
  · intro db pk
    simp only [product_detail]
    cases h : findProduct db pk <;> simp
  · intro db pk prod hfind
    simp only [product_detail, hfind]
    simp

/-- Closed instance of `view_tracking_spec`: user 2 views product 10 in the
sample database; one ProductView row appears and the counter reads 1. -/
theorem view_tracking_spec_witness :
    (product_detail dbW (some 2) 10).2.productViews =
        dbW.productViews ++ [{ user := 2, product := 10 }] ∧
      findProduct (product_detail dbW (some 2) 10).2 10 =
        some { pA with viewsCount := pA.viewsCount + 1 } :=
  ⟨(view_tracking_spec.1 dbW 2 10 pA rfl (by decide)).2.1,
   (view_tracking_spec.1 dbW 2 10 pA rfl (by decide)).2.2.1⟩

/-- **C10.** `product_detail` looks the product up by primary key only, so an
existing product with `is_available = false` never yields NotFound, and an
authenticated non-seller viewer still increments its `views_count` and gets a
ProductView row appended exactly as for an available product. -/
theorem unavailable_detail_spec :
    (∀ (db : DB) (pk : Nat) (prod : Product) (user : Option Nat),
      findProduct db pk = some prod → prod.isAvailable = false →
      (product_detail db user pk).1 ≠ DetailResult.notFound) ∧
    (∀ (db : DB) (u pk : Nat) (prod : Product),
      findProduct db pk = some prod → prod.isAvailable = false → prod.seller ≠ u →
      (product_detail db (some u) pk).2.productViews =
          db.productViews ++ [{ user := u, product := pk }] ∧
        findProduct (product_detail db (some u) pk).2 pk =
          some { prod with viewsCount := prod.viewsCount + 1 }) := by
  constructor
  · intro db pk prod user hfind _
    simp only [product_detail, hfind]
    simp
  · intro db u pk prod hfind _ hsell
    obtain ⟨_, hviews, hcount, _⟩ := product_detail_track db u pk prod hfind hsell
    exact ⟨hviews, hcount⟩

/-- Closed instance of `unavailable_detail_spec`: product 11 is unavailable,
yet user 2's visit is tracked exactly as for an available one. -/
theorem unavailable_detail_spec_witness :
    (product_detail dbW (some 2) 11).2.productViews =
        dbW.productViews ++ [{ user := 2, product := 11 }] ∧
      findProduct (product_detail dbW (some 2) 11).2 11 =
        some { pB with viewsCount := pB.viewsCount + 1 } :=
  unavailable_detail_spec.2 dbW 2 11 pB rfl rfl (by decide)

/-! ### C8 and C9: cart mutation scoping and quantity parsing -/

/-- A sample cart row owned by user 3. -/
def cartR : CartItem := { id := 21, buyer := 3, product := 10, quantity := 1 }

/-- The sample database extended with user 3 and their cart row. -/
def dbW2 : DB := { dbW with users := [1, 2, 3], carts := [cartR], nextId := 22 }

/-- **C8.** Cart remove and cart update look the row up by primary key and
requesting buyer together, so naming another buyer's row answers NotFound
(never Forbidden) and leaves the whole store — in particular that row —
unchanged. -/
theorem cart_scope_spec :
    ∀ (db : DB) (u pk : Nat) (r : CartItem),
      IdsDistinct (fun c => c.id) db.carts →
      r ∈ db.carts → r.id = pk → r.buyer ≠ u →
      cart_remove db u pk = (CartMutResult.notFound, db) ∧
      ∀ rq, cart_update db u pk rq = (CartUpdResult.notFound, db) := by
  intro db u pk r hdist hmem hrid hbuy
  have hnone : db.carts.find? (fun c => c.id == pk && c.buyer == u) = none := by
    rw [List.find?_eq_none]
    intro c hc hcon
    simp only [Bool.and_eq_true, beq_iff_eq] at hcon
    obtain ⟨hcid, hcbuy⟩ := hcon
    by_cases hcr : c = r
    · exact hbuy (hcr ▸ hcbuy)
    · exact key_ne_of_distinct hdist hc hmem hcr (hcid.trans hrid.symm)
  constructor
  · simp only [cart_remove, hnone]
  · intro rq
    simp only [cart_update, hnone]

/-- Closed instance of `cart_scope_spec`: user 2 cannot remove or update
user 3's cart row 21. -/
theorem cart_scope_spec_witness :
    cart_remove dbW2 2 21 = (CartMutResult.notFound, dbW2) ∧
      cart_update dbW2 2 21 (some "5") = (CartUpdResult.notFound, dbW2) :=
  ⟨(cart_scope_spec dbW2 2 21 cartR (List.pairwise_singleton _ _)
      (List.mem_singleton.mpr rfl) rfl (by decide)).1,
   (cart_scope_spec dbW2 2 21 cartR (List.pairwise_singleton _ _)
      (List.mem_singleton.mpr rfl) rfl (by decide)).2 (some "5")⟩

/-- **C9 counterexample.** The claim says malformed form input to the cart
quantity update is recovered locally as a redisplayed validation failure and
never a hard failure; but `cart_update` runs `int(request.POST.get(...))`
unguarded, so the non-integer quantity "abc" raises `ValueError` and the
request dies with a server error. -/
theorem cart_update_nonint_counterexample :
    cart_update dbW2 3 21 (some "abc") = (CartUpdResult.serverError, dbW2) := by
  decide

/-- **C9 (amended).** For a cart quantity update on the requester's own row:
a missing quantity field defaults to 1; a quantity string that is not a
well-formed integer raises an uncaught conversion error — a hard failure,
not a redisplayed validation failure — leaving the store unchanged; a
well-formed positive integer updates the row in place; a well-formed
integer ≤ 0 deletes exactly that row. -/
theorem cart_update_amended_spec :
    ∀ (db : DB) (u pk : Nat) (item : CartItem),
      db.carts.find? (fun c => c.id == pk && c.buyer == u) = some item →
      IdsDistinct (fun c => c.id) db.carts →
      (cart_update db u pk none).1 = CartUpdResult.redirectCart ∧
      (∀ s, pyParseInt s = none →
        cart_update db u pk (some s) = (CartUpdResult.serverError, db)) ∧
      (∀ s v, pyParseInt s = some v → 0 < v →
        (cart_update db u pk (some s)).1 = CartUpdResult.redirectCart ∧
        (cart_update db u pk (some s)).2.carts.length = db.carts.length ∧
        { item with quantity := v.toNat } ∈ (cart_update db u pk (some s)).2.carts ∧
        (∀ c ∈ db.carts, c.id ≠ item.id → c ∈ (cart_update db u pk (some s)).2.carts)) ∧
      (∀ s v, pyParseInt s = some v → v ≤ 0 →
        (cart_update db u pk (some s)).1 = CartUpdResult.redirectCart ∧
        (∀ c, c ∈ (cart_update db u pk (some s)).2.carts ↔
          c ∈ db.carts ∧ c.id ≠ item.id)) := by
  intro db u pk item hfind hdist
  have hitem : item ∈ db.carts := List.mem_of_find?_eq_some hfind
  refine ⟨?_, ?_, ?_, ?_⟩
  · simp only [cart_update, hfind]
    rfl
  · intro s hs
    simp only [cart_update, hfind, hs]
  · intro s v hv hv0
    have hcart : cart_update db u pk (some s) =
        (CartUpdResult.redirectCart,
         { db with carts := db.carts.map (fun c =>
            if c.id == item.id then { c with quantity := v.toNat } else c) }) := by
      simp only [cart_update, hfind, hv]
      rw [if_pos hv0]
    rw [hcart]
    refine ⟨rfl, by simp, ?_, ?_⟩
    · have hmem := List.mem_map_of_mem
        (fun c : CartItem => if c.id == item.id then { c with quantity := v.toNat } else c)
        hitem
      simp only [beq_self_eq_true, if_pos] at hmem
      simpa using hmem
    · intro c hc hcne
      have hmem := List.mem_map_of_mem
        (fun c : CartItem => if c.id == item.id then { c with quantity := v.toNat } else c)
        hc
      simp only [hcne, beq_iff_eq, if_false] at hmem
      simpa [hcne] using hmem
  · intro s v hv hv0
    have hcart : cart_update db u pk (some s) =
        (CartUpdResult.redirectCart,
         { db with carts := db.carts.filter (fun c => c.id != item.id) }) := by
      simp only [cart_update, hfind, hv]
      rw [if_neg (by omega)]
    rw [hcart]
    refine ⟨rfl, ?_⟩
    intro c
    show c ∈ db.carts.filter (fun c => c.id != item.id) ↔ _
    rw [List.mem_filter]
    simp

/-- Closed instance of `cart_update_amended_spec`: on user 3's row 21, a
missing quantity redirects, and the quantity "abc" is a server error. -/
theorem cart_update_amended_spec_witness :
    (cart_update dbW2 3 21 none).1 = CartUpdResult.redirectCart ∧
      cart_update dbW2 3 21 (some "abc") = (CartUpdResult.serverError, dbW2) :=
  ⟨(cart_update_amended_spec dbW2 3 21 cartR rfl (List.pairwise_singleton _ _)).1,
   (cart_update_amended_spec dbW2 3 21 cartR rfl
      (List.pairwise_singleton _ _)).2.1 "abc" (by decide)⟩

/-! ### C7: unavailable products never surface -/

/-- Every product of the list is available. -/
def Avail (xs : List Product) : Prop :=
  ∀ x ∈ xs, x.isAvailable = true

theorem avail_if (c : Prop) [Decidable c] (f : Product → Bool) {l : List Product}
    (h : Avail l) : Avail (if c then l.filter f else l) := by
  split
  · exact fun x hx => h x (List.mem_of_mem_filter hx)
  · exact h

theorem avail_sortBy (le : Product → Product → Bool) (l : List Product)
    (h : Avail l) : Avail (sortBy le l) :=
  fun x hx => h x ((mem_sortBy le x l).mp hx)

theorem avail_getPage (xs : List Product) (n : Nat) (pg : Option Int)
    (h : Avail xs) : Avail (getPage xs n pg) := by
  intro x hx
  simp only [getPage] at hx
  exact h x (List.mem_of_mem_drop (List.mem_of_mem_take hx))

/-- **C7.** A product with `is_available = false` never appears in the
listing/search results, in the similar-products list of a product-detail
view, or in the recommendations result — neither the category branch nor the
no-history fallback. -/
theorem availability_spec :
    (∀ (db : DB) (q cat cond sort : String) (page : Option Int) (p : Product),
      p ∈ product_list db q cat cond sort page → p.isAvailable = true) ∧
    (∀ (db : DB) (prod p : Product),
      p ∈ similar_products db prod → p.isAvailable = true) ∧
    (∀ (db : DB) (u : Nat) (p : Product),
      p ∈ recommendations db u → p.isAvailable = true) := by
  refine ⟨?_, ?_, ?_⟩
  · intro db q cat cond sort page p hp
    simp only [product_list] at hp
    have h0 : Avail (db.products.filter (fun p => p.isAvailable)) :=
      fun x hx => (List.mem_filter.mp hx).2
    have h1 := avail_if ((q != "") = true)
      (fun p => icontains p.name q || icontains p.description q) h0
    have h2 := avail_if ((cat != "") = true) (fun p => p.category == cat) h1
    have h3 := avail_if ((cond != "") = true) (fun p => p.condition == cond) h2
    refine avail_getPage _ _ _ ?_ p hp
    split
    · exact avail_sortBy _ _ h3
    · split
      · exact avail_sortBy _ _ h3
      · split
        · exact avail_sortBy _ _ h3
        · exact avail_sortBy _ _ h3
  · intro db prod p hp
    simp only [similar_products] at hp
    replace hp := List.mem_of_mem_take hp
    replace hp := List.mem_of_mem_filter hp
    replace hp := (mem_sortBy _ _ _).mp hp
    have h2 := (List.mem_filter.mp hp).2
    simp only [Bool.and_eq_true] at h2
    exact h2.2
  · intro db u p hp
    simp only [recommendations] at hp
    split at hp
    · replace hp := List.mem_of_mem_take hp
      replace hp := (mem_sortBy _ _ _).mp hp
      have h2 := (List.mem_filter.mp hp).2
      simp only [Bool.and_eq_true] at h2
      exact h2.1.2
    · replace hp := List.mem_of_mem_take hp
      replace hp := (mem_sortBy _ _ _).mp hp
      have h2 := (List.mem_filter.mp hp).2
      simp only [Bool.and_eq_true] at h2
      exact h2.1

/-- Closed instance of `availability_spec`: the available product 10 shows up
in the default listing and in the no-history recommendations, and the
theorem certifies any such member is available. -/
theorem availability_spec_witness :
    (pA ∈ product_list dbW "" "" "" "" none ∧ pA.isAvailable = true) ∧
      (pA ∈ recommendations dbW 2 ∧ pA.isAvailable = true) :=
  ⟨⟨by decide, availability_spec.1 dbW "" "" "" "" none pA (by decide)⟩,
   ⟨by decide, availability_spec.2.2 dbW 2 pA (by decide)⟩⟩

/-! ### C3: one conversation per (product, buyer, seller) triple -/

theorem filter_append_single_le_one {α : Type} (key : α → Bool) (l : List α) (x : α)
    (h : key x = true → l.filter key = [])
    (hlen : (l.filter key).length ≤ 1) :
    ((l ++ [x]).filter key).length ≤ 1 := by
  rw [List.filter_append]
  cases hk : key x with
  | true =>
    rw [h hk]
    simp [List.filter_cons, hk]
  | false =>
    rw [List.length_append]
    have hx : ([x].filter key) = [] := by simp [List.filter_cons, hk]
    rw [hx]
    simpa using hlen

/-- The conversation rows keyed by a (product, buyer, seller) triple. -/
def convRowsFor (db : DB) (productId buyer seller : Nat) : List Conversation :=
  db.conversations.filter
    (fun c => c.product == productId && c.buyer == buyer && c.seller == seller)

/-- At most one conversation row per (product, buyer, seller) triple. -/
def ConvUnique (db : DB) : Prop :=
  ∀ productId buyer seller, (convRowsFor db productId buyer seller).length ≤ 1

/-- A sample conversation about product 10 between buyer 2 and seller 1. -/
def convW : Conversation := { id := 30, product := 10, buyer := 2, seller := 1 }

/-- A sample first message of `convW`, still unread. -/
def msgW : Message :=
  { id := 31, conversation := 30, sender := 2, receiver := 1, content := "hi",
    timestamp := 31, read := false }

/-- The sample database extended with `convW` and `msgW`. -/
def dbW3 : DB := { dbW with conversations := [convW], messages := [msgW], nextId := 40 }

/-- **C3.** `start_conversation` never duplicates a (product, buyer, seller)
triple: the at-most-one-row-per-triple invariant is preserved by every run,
and when the triple already has a row a posted message is appended to that
row — the conversation table is unchanged and the result redirects to the
existing conversation. -/
theorem conversation_unique_spec :
    (∀ (db : DB) (u pk : Nat) (post : Option String),
      ConvUnique db → ConvUnique (start_conversation db u pk post).2) ∧
    (∀ (db : DB) (u pk : Nat) (prod : Product) (conv : Conversation) (raw : String),
      findProduct db pk = some prod → prod.seller ≠ u →
      convRowsFor db prod.id u prod.seller = [conv] →
      pyStrip raw ≠ "" →
      (start_conversation db u pk (some raw)).1 = StartConvResult.redirectConv conv.id ∧
        (start_conversation db u pk (some raw)).2.conversations = db.conversations ∧
        (start_conversation db u pk (some raw)).2.messages = db.messages ++
          [{ id := db.nextId, conversation := conv.id, sender := u,
             receiver := prod.seller, content := pyStrip raw,
             timestamp := db.nextId, read := false }]) := by
  constructor
  · intro db u pk post hu
    cases hfind : findProduct db pk with
    | none =>
      have h : start_conversation db u pk post = (StartConvResult.notFound, db) := by
        simp only [start_conversation, hfind]
      rw [h]; exact hu
    | some prod =>
      by_cases hsell : (prod.seller == u) = true
      · have h : start_conversation db u pk post = (StartConvResult.invalidOperation, db) := by
          simp only [start_conversation, hfind]
          rw [if_pos hsell]
        rw [h]; exact hu
      · cases hpost : (match post with
            | some raw => if pyStrip raw != "" then some (pyStrip raw) else none
            | none => (none : Option String)) with
        | none =>
          cases hex : db.conversations.find? (fun c =>
              c.product == prod.id && c.buyer == u && c.seller == prod.seller) with
          | none =>
            have h : start_conversation db u pk post = (StartConvResult.form, db) := by
              simp only [start_conversation, hfind, hpost, hex]
              rw [if_neg hsell]
            rw [h]; exact hu
          | some conv =>
            have h : start_conversation db u pk post =
                (StartConvResult.redirectConv conv.id, db) := by
              simp only [start_conversation, hfind, hpost, hex]
              rw [if_neg hsell]
            rw [h]; exact hu
        | some content =>
          cases hex : db.conversations.find? (fun c =>
              c.product == prod.id && c.buyer == u && c.seller == prod.seller) with
          | some conv =>
            have h : start_conversation db u pk post =
                (StartConvResult.redirectConv conv.id,
                 { db with
                   messages := db.messages ++
                     [{ id := db.nextId, conversation := conv.id, sender := u,
                        receiver := prod.seller, content := content,
                        timestamp := db.nextId, read := false }],
                   nextId := db.nextId + 1 }) := by
              simp only [start_conversation, hfind, hpost, hex]
              rw [if_neg hsell]
            rw [h]; exact hu
          | none =>
            have h : start_conversation db u pk post =
                (StartConvResult.redirectConv db.nextId,
                 { db with
                   conversations := db.conversations ++
                     [{ id := db.nextId, product := prod.id, buyer := u,
                        seller := prod.seller }],
                   messages := db.messages ++
                     [{ id := db.nextId + 1, conversation := db.nextId, sender := u,
                        receiver := prod.seller, content := content,
                        timestamp := db.nextId + 1, read := false }],
                   nextId := db.nextId + 2 }) := by
              simp only [start_conversation, hfind, hpost, hex]
              rw [if_neg hsell]
            rw [h]
            intro pid b s
            simp only [convRowsFor]
            apply filter_append_single_le_one
            · intro hk
              simp only [Bool.and_eq_true, beq_iff_eq] at hk
              obtain ⟨⟨hp1, hb1⟩, hs1⟩ := hk
              rw [List.filter_eq_nil_iff]
              intro c hc
              have hnc := List.find?_eq_none.mp hex c hc
              rw [← hp1, ← hb1, ← hs1]
              exact hnc
            · simpa [convRowsFor] using hu pid b s
  · intro db u pk prod conv raw hfind hsell hfilter hraw
    have hfilter' : db.conversations.filter
        (fun c => c.product == prod.id && c.buyer == u && c.seller == prod.seller) =
          [conv] := hfilter
    have hex := find?_of_filter_eq_singleton _ _ _ hfilter'
    have hconv : start_conversation db u pk (some raw) =
        (StartConvResult.redirectConv conv.id,
         { db with
           messages := db.messages ++
             [{ id := db.nextId, conversation := conv.id, sender := u,
                receiver := prod.seller, content := pyStrip raw,
                timestamp := db.nextId, read := false }],
           nextId := db.nextId + 1 }) := by
      simp only [start_conversation, hfind, hex]
      rw [if_neg (by simpa using hsell)]
      rw [if_pos (by simpa using hraw)]
    rw [hconv]
    exact ⟨rfl, rfl, rfl⟩

/-- Closed instance of `conversation_unique_spec`: user 2 starts a second
conversation about product 10; the existing row 30 is reused and the message
lands in it. -/
theorem conversation_unique_spec_witness :
    (start_conversation dbW3 2 10 (some " hello ")).1 =
        StartConvResult.redirectConv convW.id ∧
      (start_conversation dbW3 2 10 (some " hello ")).2.conversations =
        dbW3.conversations ∧
      (start_conversation dbW3 2 10 (some " hello ")).2.messages = dbW3.messages ++
        [{ id := dbW3.nextId, conversation := convW.id, sender := 2,
           receiver := pA.seller, content := pyStrip " hello ",
           timestamp := dbW3.nextId, read := false }] :=
  conversation_unique_spec.2 dbW3 2 10 pA convW " hello " rfl (by decide)
    (by decide) (by decide)

/-! ### C4: the receiver is always the other party -/

/-- **C4.** Posting into a conversation fails with Forbidden (and changes
nothing) when the requester is neither its buyer nor its seller; a message
posted by a participant is appended with the requester as sender and the
*other* party as receiver (buyer posts to seller, seller posts to buyer).
The same holds for the message created by `start_conversation`, whose
conversation row has the requester as buyer and the product's seller as
seller. -/
theorem message_receiver_spec :
    (∀ (db : DB) (u pk : Nat) (conv : Conversation) (post : Option String),
      db.conversations.find? (fun c => c.id == pk) = some conv →
      u ≠ conv.buyer → u ≠ conv.seller →
      conversation_detail db u pk post = (ConvDetailResult.forbidden, db)) ∧
    (∀ (db : DB) (u pk : Nat) (conv : Conversation) (raw : String),
      db.conversations.find? (fun c => c.id == pk) = some conv →
      (u = conv.buyer ∨ u = conv.seller) →
      pyStrip raw ≠ "" →
      ∃ m : Message,
        (conversation_detail db u pk (some raw)).1 = ConvDetailResult.redirectSelf ∧
        (conversation_detail db u pk (some raw)).2.messages = db.messages ++ [m] ∧
        m.conversation = conv.id ∧ m.sender = u ∧
        (u = conv.buyer → m.receiver = conv.seller) ∧
        (u = conv.seller → m.receiver = conv.buyer)) ∧
    (∀ (db : DB) (u pk : Nat) (prod : Product) (raw : String),
      findProduct db pk = some prod → prod.seller ≠ u →
      pyStrip raw ≠ "" →
      ∃ (cr : Conversation) (m : Message),
        (start_conversation db u pk (some raw)).1 = StartConvResult.redirectConv cr.id ∧
        cr ∈ (start_conversation db u pk (some raw)).2.conversations ∧
        cr.buyer = u ∧ cr.seller = prod.seller ∧
        (start_conversation db u pk (some raw)).2.messages = db.messages ++ [m] ∧
        m.conversation = cr.id ∧ m.sender = cr.buyer ∧ m.receiver = cr.seller) := by
  refine ⟨?_, ?_, ?_⟩
  · intro db u pk conv post hfind hb hs
    simp only [conversation_detail, hfind]
    rw [if_pos (by simp only [Bool.and_eq_true, bne_iff_ne]; exact ⟨hb, hs⟩)]
  · intro db u pk conv raw hfind hpart hraw
    by_cases hbuy : (conv.buyer == u) = true
    · refine Exists.intro
        { id := db.nextId, conversation := conv.id, sender := u,
          receiver := conv.seller, content := pyStrip raw, timestamp := db.nextId,
          read := false } ?_
      have h : conversation_detail db u pk (some raw) =
          (ConvDetailResult.redirectSelf,
           { db with
             messages := db.messages ++
               [{ id := db.nextId, conversation := conv.id, sender := u,
                  receiver := conv.seller, content := pyStrip raw,
                  timestamp := db.nextId, read := false }],
             nextId := db.nextId + 1 }) := by
        simp only [conversation_detail, hfind]
        rw [if_neg (by
          simp only [Bool.and_eq_true, bne_iff_ne, not_and]
          intro hne
          exact absurd (by simpa using hbuy) (Ne.symm hne))]
        rw [if_pos (by simpa using hraw)]
        rw [if_pos hbuy]
      rw [h]
      refine ⟨rfl, rfl, rfl, rfl, fun _ => rfl, fun hsel => ?_⟩
      show conv.seller = conv.buyer
      rw [← hsel, eq_of_beq hbuy]
    · have hsel : u = conv.seller := by
        cases hpart with
        | inl hb => exact absurd (by simp [hb]) hbuy
        | inr hs => exact hs
      refine Exists.intro
        { id := db.nextId, conversation := conv.id, sender := u,
          receiver := conv.buyer, content := pyStrip raw, timestamp := db.nextId,
          read := false } ?_
      have h : conversation_detail db u pk (some raw) =
          (ConvDetailResult.redirectSelf,
           { db with
             messages := db.messages ++
               [{ id := db.nextId, conversation := conv.id, sender := u,
                  receiver := conv.buyer, content := pyStrip raw,
                  timestamp := db.nextId, read := false }],
             nextId := db.nextId + 1 }) := by
        simp only [conversation_detail, hfind]
        rw [if_neg (by
          simp only [Bool.and_eq_true, bne_iff_ne, not_and]
          intro _ hne
          exact hne hsel)]
        rw [if_pos (by simpa using hraw)]
        rw [if_neg hbuy]
      rw [h]
      refine ⟨rfl, rfl, rfl, rfl, fun hb => ?_, fun _ => rfl⟩
      exact absurd (by simp [hb]) hbuy
  · intro db u pk prod raw hfind hsell hraw
    cases hex : db.conversations.find? (fun c =>
        c.product == prod.id && c.buyer == u && c.seller == prod.seller) with
    | some conv =>
      have hkey := List.find?_some hex
      simp only [Bool.and_eq_true, beq_iff_eq] at hkey
      obtain ⟨⟨hcp, hcb⟩, hcs⟩ := hkey
      have hmem := List.mem_of_find?_eq_some hex
      refine Exists.intro conv (Exists.intro
        { id := db.nextId, conversation := conv.id, sender := u,
          receiver := prod.seller, content := pyStrip raw, timestamp := db.nextId,
          read := false } ?_)
      have h : start_conversation db u pk (some raw) =
          (StartConvResult.redirectConv conv.id,
           { db with
             messages := db.messages ++
               [{ id := db.nextId, conversation := conv.id, sender := u,
                  receiver := prod.seller, content := pyStrip raw,
                  timestamp := db.nextId, read := false }],
             nextId := db.nextId + 1 }) := by
        simp only [start_conversation, hfind, hex]
        rw [if_neg (by simpa using hsell)]
        rw [if_pos (by simpa using hraw)]
      rw [h]
      exact ⟨rfl, hmem, hcb, hcs, rfl, rfl, hcb.symm ▸ rfl, hcs.symm ▸ rfl⟩
    | none =>
      refine Exists.intro
        { id := db.nextId, product := prod.id, buyer := u, seller := prod.seller }
        (Exists.intro
          { id := db.nextId + 1, conversation := db.nextId, sender := u,
            receiver := prod.seller, content := pyStrip raw,
            timestamp := db.nextId + 1, read := false } ?_)
      have h : start_conversation db u pk (some raw) =
          (StartConvResult.redirectConv db.nextId,
           { db with
             conversations := db.conversations ++
               [{ id := db.nextId, product := prod.id, buyer := u,
                  seller := prod.seller }],
             messages := db.messages ++
               [{ id := db.nextId + 1, conversation := db.nextId, sender := u,
                  receiver := prod.seller, content := pyStrip raw,
                  timestamp := db.nextId + 1, read := false }],
             nextId := db.nextId + 2 }) := by
        simp only [start_conversation, hfind, hex]
        rw [if_neg (by simpa using hsell)]
        rw [if_pos (by simpa using hraw)]
      rw [h]
      refine ⟨rfl, ?_, rfl, rfl, rfl, rfl, rfl, rfl⟩
      exact List.mem_append_right _ (List.mem_singleton.mpr rfl)

/-- Closed instance of `message_receiver_spec`: user 5 is neither party of
conversation 30 and is refused with Forbidden. -/
theorem message_receiver_spec_witness :
    conversation_detail dbW3 5 30 (some "x") = (ConvDetailResult.forbidden, dbW3) :=
  message_receiver_spec.1 dbW3 5 30 convW (some "x") rfl (by decide) (by decide)

/-! ### C5: opening a conversation marks exactly the opener's messages read -/

/-- **C5.** When a participant opens a conversation, exactly the messages of
that conversation addressed to the opener end up read — their other fields
and every message addressed to anyone else are untouched, and the rest of
the store is unchanged — and the opener's unread count drops to 0. -/
theorem read_marking_spec :
    ∀ (db : DB) (u pk : Nat) (conv : Conversation),
      db.conversations.find? (fun c => c.id == pk) = some conv →
      (u = conv.buyer ∨ u = conv.seller) →
      (conversation_detail db u pk none).1 = ConvDetailResult.page ∧
      (conversation_detail db u pk none).2.messages.length = db.messages.length ∧
      (∀ (i : Nat) (m m2 : Message),
        db.messages.get? i = some m →
        (conversation_detail db u pk none).2.messages.get? i = some m2 →
        m2.id = m.id ∧ m2.conversation = m.conversation ∧ m2.sender = m.sender ∧
        m2.receiver = m.receiver ∧ m2.content = m.content ∧
        m2.timestamp = m.timestamp ∧
        (m.conversation = conv.id ∧ m.receiver = u → m2.read = true) ∧
        (¬(m.conversation = conv.id ∧ m.receiver = u) → m2.read = m.read)) ∧
      unread_count (conversation_detail db u pk none).2 conv.id u = 0 ∧
      (conversation_detail db u pk none).2.conversations = db.conversations ∧
      (conversation_detail db u pk none).2.products = db.products ∧
      (conversation_detail db u pk none).2.carts = db.carts ∧
      (conversation_detail db u pk none).2.ratings = db.ratings := by
  intro db u pk conv hfind hpart
  have h : conversation_detail db u pk none =
      (ConvDetailResult.page,
       { db with messages := db.messages.map (fun m =>
          if m.conversation == conv.id && m.receiver == u && !m.read then
            { m with read := true }
          else m) }) := by
    simp only [conversation_detail, hfind]
    rw [if_neg (by
      simp only [Bool.and_eq_true, bne_iff_ne, not_and]
      intro hb hs
      cases hpart with
      | inl h1 => exact hb h1
      | inr h1 => exact hs h1)]
  rw [h]
  refine ⟨rfl, by simp, ?_, ?_, rfl, rfl, rfl, rfl⟩
  · intro i m m2 hm hm2
    have hmap : (db.messages.map (fun m =>
        if m.conversation == conv.id && m.receiver == u && !m.read then
          { m with read := true }
        else m)).get? i = some ((fun m =>
          if m.conversation == conv.id && m.receiver == u && !m.read then
            { m with read := true }
          else m) m) := by
      rw [List.get?_eq_getElem?, List.getElem?_map, ← List.get?_eq_getElem?, hm]
      rfl
    have hm2' : m2 = (if m.conversation == conv.id && m.receiver == u && !m.read then
        { m with read := true } else m) := by
      have h3 := hm2.symm.trans hmap
      exact (Option.some.injEq _ _).mp h3
    subst hm2'
    by_cases hc : (m.conversation == conv.id && m.receiver == u && !m.read) = true
    · rw [if_pos hc]
      simp only [Bool.and_eq_true, beq_iff_eq, Bool.not_eq_true'] at hc
      exact ⟨rfl, rfl, rfl, rfl, rfl, rfl, fun _ => rfl,
        fun hn => absurd ⟨hc.1.1, hc.1.2⟩ hn⟩
    · rw [if_neg hc]
      refine ⟨rfl, rfl, rfl, rfl, rfl, rfl, ?_, fun _ => rfl⟩
      rintro ⟨h1, h2⟩
      by_cases hr : m.read = true
      · exact hr
      · exfalso
        apply hc
        have hr2 : m.read = false := Bool.eq_false_iff.mpr hr
        simp [h1, h2, hr2]
  · show (List.filter (fun m => m.conversation == conv.id && m.receiver == u && !m.read)
      (db.messages.map (fun m =>
        if m.conversation == conv.id && m.receiver == u && !m.read then
          { m with read := true }
        else m))).length = 0
    rw [List.length_eq_zero, List.filter_eq_nil_iff]
    intro x hx
    obtain ⟨m, hmem, hxm⟩ := List.mem_map.mp hx
    subst hxm
    by_cases hc : (m.conversation == conv.id && m.receiver == u && !m.read) = true
    · simp [hc]
    · simp only [Bool.not_eq_true] at hc
      simp [hc]

/-- Closed instance of `read_marking_spec`: seller 1 opens conversation 30
and their unread count is 0 afterwards. -/
theorem read_marking_spec_witness :
    (conversation_detail dbW3 1 30 none).1 = ConvDetailResult.page ∧
      unread_count (conversation_detail dbW3 1 30 none).2 convW.id 1 = 0 :=
  ⟨(read_marking_spec dbW3 1 30 convW rfl (Or.inr rfl)).1,
   (read_marking_spec dbW3 1 30 convW rfl (Or.inr rfl)).2.2.2.1⟩

/-! ### C6: rating upsert -/

/-- A sample rating of seller 1 by buyer 2 on product 10. -/
def ratW : Rating :=
  { id := 50, seller := 1, buyer := 2, product := some 10, rating := 4, review := "ok" }

/-- The sample database extended with `ratW`. -/
def dbW4 : DB := { dbW with ratings := [ratW], nextId := 60 }

/-- **C6.** Rating a seller fails with `InvalidOperation` when buyer equals
seller; and when the (seller, buyer, product) triple already has a Rating
row, a valid submission (rating in 1..5, review within the 500-character
form bound) updates that row's rating and review in place — no new row is
inserted and the triple still maps to a single row carrying the latest
value, so the seller's average reflects only that value. -/
theorem rating_upsert_spec :
    (∀ (db : DB) (u : Nat) (productPk : Option Nat) (post : Option (Nat × String)),
      db.users.contains u = true →
      rate_seller db u u productPk post = (RateResult.invalidOperation, db)) ∧
    (∀ (db : DB) (u sellerId : Nat) (productPk : Option Nat) (prodRef : Option Nat)
        (r0 : Rating) (score : Nat) (review : String),
      db.users.contains sellerId = true → sellerId ≠ u →
      resolveProduct db productPk = some prodRef →
      IdsDistinct (fun r => r.id) db.ratings →
      ratingRowsFor db sellerId u prodRef = [r0] →
      1 ≤ score → score ≤ 5 → review.length ≤ 500 →
      (rate_seller db u sellerId productPk (some (score, review))).1 =
          RateResult.redirectProfile ∧
        (rate_seller db u sellerId productPk (some (score, review))).2.ratings.length =
          db.ratings.length ∧
        ratingRowsFor (rate_seller db u sellerId productPk (some (score, review))).2
            sellerId u prodRef =
          [{ r0 with rating := score, review := review }] ∧
        (∀ r ∈ db.ratings, r.id ≠ r0.id →
          r ∈ (rate_seller db u sellerId productPk (some (score, review))).2.ratings)) := by
  constructor
  · intro db u productPk post hcont
    simp only [rate_seller]
    rw [if_pos hcont]
    rw [if_pos (by simp)]
  · intro db u sellerId productPk prodRef r0 score review hcont hne hres hdist hfilter
      h1 h5 hlen
    have hfilter' : db.ratings.filter
        (fun r => r.seller == sellerId && r.buyer == u && r.product == prodRef) =
          [r0] := hfilter
    have hfindr := find?_of_filter_eq_singleton _ _ _ hfilter'
    obtain ⟨hrmem, hrkey⟩ := mem_of_filter_eq_singleton hfilter'
    have hkeys : r0.seller = sellerId ∧ r0.buyer = u ∧ r0.product = prodRef := by
      simp only [Bool.and_eq_true, beq_iff_eq] at hrkey
      exact ⟨hrkey.1.1, hrkey.1.2, hrkey.2⟩
    have hrs : rate_seller db u sellerId productPk (some (score, review)) =
        (RateResult.redirectProfile,
         { db with ratings := db.ratings.map (fun r =>
            if r.id == r0.id then
              { r with seller := sellerId, buyer := u, product := prodRef,
                       rating := score, review := review }
            else r) }) := by
      simp only [rate_seller, hres, hfindr]
      rw [if_pos hcont]
      rw [if_neg (by simpa using fun hcon => hne hcon)]
      rw [if_pos ⟨h1, h5, hlen⟩]
    rw [hrs]
    have hfr0 : ({ r0 with seller := sellerId, buyer := u, product := prodRef, rating := score, review := review } : Rating) = { r0 with rating := score, review := review } := by
      obtain ⟨hs, hb, hp⟩ := hkeys
      cases r0
      simp only at hs hb hp
      rw [hs, hb, hp]
    refine ⟨rfl, by simp, ?_, ?_⟩
    · have hres2 := filter_map_single
        (fun r => r.seller == sellerId && r.buyer == u && r.product == prodRef)
        (fun r => if r.id == r0.id then
          { r with seller := sellerId, buyer := u, product := prodRef,
                   rating := score, review := review }
          else r)
        db.ratings r0 hfilter'
        (fun a ha hane => by
          have hni : a.id ≠ r0.id := key_ne_of_distinct hdist ha hrmem hane
          simp [hni])
        (by simp)
      show List.filter _ _ = _
      rw [hres2]
      congr 1
      simpa using hfr0
    · intro r hr hrne
      have hmem := List.mem_map_of_mem
        (fun r : Rating => if r.id == r0.id then
          { r with seller := sellerId, buyer := u, product := prodRef,
                   rating := score, review := review }
          else r) hr
      simp only [hrne, beq_iff_eq, if_false] at hmem
      simpa [hrne] using hmem

/-- Closed instance of `rating_upsert_spec`: buyer 2 re-rates seller 1 on
product 10; the single existing row now carries rating 5. -/
theorem rating_upsert_spec_witness :
    (rate_seller dbW4 2 1 (some 10) (some (5, "great"))).1 =
        RateResult.redirectProfile ∧
      ratingRowsFor (rate_seller dbW4 2 1 (some 10) (some (5, "great"))).2
          1 2 (some 10) =
        [{ ratW with rating := 5, review := "great" }] :=
  ⟨(rating_upsert_spec.2 dbW4 2 1 (some 10) (some 10) ratW 5 "great" rfl (by decide)
      rfl (List.pairwise_singleton _ _) rfl (by decide) (by decide) (by decide)).1,
   (rating_upsert_spec.2 dbW4 2 1 (some 10) (some 10) ratW 5 "great" rfl (by decide)
      rfl (List.pairwise_singleton _ _) rfl (by decide) (by decide) (by decide)).2.2.1⟩

end Market
